import Mathlib

/-!
Shallow embedding of the d4c download manager (Go sources `download.go`,
`download_manager.go`, `db.go`) and verification of its specification claims.

Modelling conventions:
* Byte offsets and sizes (`int64` in the source) are `Int`; loop counters and
  element counts (`int` used only as non-negative counts) are `Nat`.
* The four-valued state enum is bit-exact with the source
  (`0 = Active, 1 = Paused, 2 = Cancelled, 3 = Completed`).
* SQLite is modelled as in-memory lists of rows with auto-increment counters;
  the HTTP client is modelled by passing the `HEAD` / ranged-`GET` responses
  as explicit arguments.
* A Go `nil`-pointer dereference is modelled by the distinguished outcome
  `Outcome.panicked`; goroutines spawned by `Start` are asynchronous and out
  of the per-operation observable footprint, while the synchronous map and
  context bookkeeping of the manager is modelled exactly.
-/

/-- State enum `DownloadState` from `download.go`: `0 = Active, 1 = Paused, 2 = Cancelled,
`3 = Completed`. -/
inductive DownloadState where
  | active
  | paused
  | cancelled
  | completed
deriving DecidableEq, Repr, BEq

/-- Structure `ChunkInfo` from `download.go` (the `sync`/JSON plumbing elided). -/
structure ChunkInfo where
  id : Int
  startByte : Int
  endByte : Int
  written : Int
  index : Nat
  state : DownloadState
deriving DecidableEq, Repr, BEq

/-- Structure `Download` from `download.go`; the mutex, wait group, HTTP client, channel
and throttle timestamp fields are concurrency plumbing and are modelled where
they are used (`notifyEmits` for the throttle). -/
structure Download where
  id : Int
  url : String
  targetPath : String
  totalSize : Int
  chunkCount : Nat
  chunks : List ChunkInfo
  state : DownloadState
  completedChunks : Nat
  workersCount : Nat
deriving DecidableEq, Repr, BEq

/-- The chunk built for index `i` by the range loop of `NewDownload`
(`download.go:133-150`): `chunkSize := size / chunks`,
`start := chunkSize * i`, `end := start + chunkSize - 1`, overridden to
`size - 1` for the last index. -/
def mkChunk (size : Int) (chunks : Nat) (i : Nat) : ChunkInfo :=
  let chunkSize := size / (chunks : Int)
  let start := chunkSize * (i : Int)
  { id := 0
    startByte := start
    endByte := if i = chunks - 1 then size - 1 else start + chunkSize - 1
    written := 0
    index := i
    state := .active }

/-- The chunk list built by `NewDownload` (`download.go:135-150`). -/
def mkChunks (size : Int) (chunks : Nat) : List ChunkInfo :=
  (List.range chunks).map (mkChunk size chunks)

/-- The byte length of a chunk's range, `end_byte - start_byte + 1`. -/
def chunkSpan (c : ChunkInfo) : Int :=
  c.endByte - c.startByte + 1

theorem mkChunks_length (size : Int) (chunks : Nat) :
    (mkChunks size chunks).length = chunks := by
  simp [mkChunks]

theorem mkChunks_get (size : Int) (chunks : Nat) (i : Nat)
    (h : i < (mkChunks size chunks).length) :
    (mkChunks size chunks).get ⟨i, h⟩ = mkChunk size chunks i := by
  simp [mkChunks]

/-- Fact `1 ≤ size / n` once `1 ≤ n ≤ size` (all quantities non-negative, so Go's
truncating `int64` division agrees with Euclidean division). -/
theorem one_le_chunkSize (s : Int) (n : Nat) (h1 : 1 ≤ n) (h2 : (n : Int) ≤ s) :
    1 ≤ s / (n : Int) := by
  have hn0 : (0:Int) < (n : Int) := by exact_mod_cast h1
  have hqr := Int.ediv_add_emod s (n : Int)
  have hr0 := Int.emod_nonneg s (by omega : (n:Int) ≠ 0)
  have hrlt := Int.emod_lt_of_pos s hn0
  by_contra hq
  push_neg at hq
  have hq' : s / (n:Int) ≤ 0 := by omega
  have : (n:Int) * (s / (n:Int)) ≤ 0 := mul_nonpos_of_nonneg_of_nonpos (by omega) hq'
  linarith

/-- Fact `(size / n) * n ≤ size` for a positive divisor. -/
theorem chunkSize_mul_le (s : Int) (n : Nat) (h1 : 1 ≤ n) :
    (s / (n:Int)) * (n:Int) ≤ s := by
  have hn0 : (0:Int) < (n : Int) := by exact_mod_cast h1
  have hqr := Int.ediv_add_emod s (n : Int)
  have hr0 := Int.emod_nonneg s (by omega : (n:Int) ≠ 0)
  linarith [mul_comm (s / (n:Int)) (n:Int)]

/-- Every chunk except the last spans exactly `size / n` bytes. -/
theorem chunkSpan_mkChunk_of_lt (s : Int) (n : Nat) (i : Nat) (hi : i < n - 1) :
    chunkSpan (mkChunk s n i) = s / (n : Int) := by
  have : i ≠ n - 1 := by omega
  simp only [chunkSpan, mkChunk, if_neg this]
  ring

theorem sum_chunkSpan_range (s : Int) (n : Nat) (m : Nat) (hm : m ≤ n - 1) :
    ((List.range m).map (fun i => chunkSpan (mkChunk s n i))).sum
      = (m : Int) * (s / (n : Int)) := by
  induction m with
  | zero => simp
  | succ k ih =>
    rw [List.range_succ, List.map_append, List.sum_append, ih (by omega)]
    simp only [List.map_cons, List.map_nil, List.sum_cons, List.sum_nil]
    rw [chunkSpan_mkChunk_of_lt s n k (by omega)]
    push_cast
    ring

/-- C1: for a Download constructed with `(size S, chunks N)` and `S ≥ N ≥ 1`,
the ranges of `NewDownload` form an equal-size partition of `[0, S-1]` with
the remainder absorbed by the last chunk: the first chunk starts at 0, the
last ends at `S-1`, every non-final chunk spans `S / N` bytes, consecutive
chunks are contiguous (hence non-overlapping, each chunk being non-empty),
and the spans sum to `S`. -/
theorem c1_range_partition (s : Int) (n : Nat) (h1 : 1 ≤ n) (h2 : (n : Int) ≤ s) :
    (mkChunks s n).length = n
    ∧ (∀ h0 : 0 < (mkChunks s n).length,
        ((mkChunks s n).get ⟨0, h0⟩).startByte = 0)
    ∧ (∀ hl : n - 1 < (mkChunks s n).length,
        ((mkChunks s n).get ⟨n - 1, hl⟩).endByte = s - 1)
    ∧ (∀ i, ∀ hi : i < (mkChunks s n).length, i < n - 1 →
        chunkSpan ((mkChunks s n).get ⟨i, hi⟩) = s / (n : Int))
    ∧ (∀ i, ∀ hi : i < (mkChunks s n).length, ∀ hi1 : i + 1 < (mkChunks s n).length,
        ((mkChunks s n).get ⟨i + 1, hi1⟩).startByte
          = ((mkChunks s n).get ⟨i, hi⟩).endByte + 1)
    ∧ (∀ i, ∀ hi : i < (mkChunks s n).length,
        ((mkChunks s n).get ⟨i, hi⟩).startByte ≤ ((mkChunks s n).get ⟨i, hi⟩).endByte)
    ∧ ((mkChunks s n).map chunkSpan).sum = s := by
  have hq1 : 1 ≤ s / (n : Int) := one_le_chunkSize s n h1 h2
  have hqn : (s / (n:Int)) * (n:Int) ≤ s := chunkSize_mul_le s n h1
  have hcast : ((n - 1 : Nat) : Int) = (n : Int) - 1 := by
    push_cast [Nat.cast_sub h1]
    ring
  refine ⟨mkChunks_length s n, ?_, ?_, ?_, ?_, ?_, ?_⟩
  · intro h0
    rw [mkChunks_get]
    simp [mkChunk]
  · intro hl
    rw [mkChunks_get]
    simp [mkChunk]
  · intro i hi hilt
    rw [mkChunks_get]
    exact chunkSpan_mkChunk_of_lt s n i hilt
  · intro i hi hi1
    rw [mkChunks_get, mkChunks_get]
    have hlen := mkChunks_length s n
    have hne : i ≠ n - 1 := by omega
    simp only [mkChunk, if_neg hne]
    push_cast
    ring
  · intro i hi
    rw [mkChunks_get]
    have hlen := mkChunks_length s n
    by_cases hlast : i = n - 1
    · subst hlast
      simp only [mkChunk, if_pos rfl]
      have : (s / (n:Int)) * ((n:Int) - 1) ≤ s - 1 := by
        have e : (s / (n:Int)) * ((n:Int) - 1) = (s / (n:Int)) * (n:Int) - s / (n:Int) := by
          ring
        linarith
      calc s / (n:Int) * ((n - 1 : Nat) : Int) = s / (n:Int) * ((n:Int) - 1) := by
            rw [hcast]
        _ ≤ s - 1 := this

    · simp only [mkChunk, if_neg hlast]
      linarith
  · have hsplit : List.range n = List.range (n-1) ++ [n-1] := by
      conv_lhs => rw [show n = (n-1)+1 by omega]
      rw [List.range_succ]
    rw [mkChunks, List.map_map, hsplit, List.map_append, List.sum_append]
    have hsum := sum_chunkSpan_range s n (n-1) (le_refl _)
    simp only [Function.comp_def]
    rw [hsum]
    simp only [List.map_cons, List.map_nil, List.sum_cons, List.sum_nil]
    simp only [chunkSpan, mkChunk, eq_self_iff_true, if_true]
    ring

/-- Witness for `c1_range_partition` at the spec's scenario 2
(`size = 1000, chunks = 3`). -/
theorem c1_range_partition_witness :
    (1 ≤ 3 ∧ (3 : Int) ≤ 1000)
    ∧ ((mkChunks 1000 3).map chunkSpan).sum = 1000 :=
  ⟨⟨by norm_num, by norm_num⟩,
    (c1_range_partition 1000 3 (by norm_num) (by norm_num)).2.2.2.2.2.2⟩

/-- The ranged-`GET` response seen by `DownloadChunk`: the HTTP status and the
sizes of the successive successful `res.Body.Read` calls before end-of-stream.
A `206 Partial Content` body carries exactly the requested window; a `200 OK`
body carries the whole resource from byte 0 (the server ignored `Range`). -/
structure RangeResponse where
  status : Nat
  body : List Nat
deriving DecidableEq, Repr

/-- The read loop of `DownloadChunk` (`download.go:214-261`) on the
no-cancellation path: every read of `n > 0` bytes is written to the part file
in full and added to `written`; end-of-stream marks the chunk Completed
(incrementing `completedChunks` if it was not already Completed). Returns the
updated chunk and `completedChunks` count. -/
def readLoop (chunk : ChunkInfo) (completedChunks : Nat) : List Nat → ChunkInfo × Nat
  | [] =>
    if chunk.state ≠ .completed then
      ({ chunk with state := .completed }, completedChunks + 1)
    else (chunk, completedChunks)
  | n :: rest => readLoop { chunk with written := chunk.written + (n : Int) } completedChunks rest

/-- Routine `DownloadChunk` (`download.go:155-262`) without cancellation: early return
on a Completed chunk; re-sync `written` from the on-disk part-file length when
the part file exists; completion short-circuit when `written` already covers
the range; then the ranged GET, accepting status 206 or 200, and the read
loop. Returns the updated chunk, the updated `completedChunks` count, and the
error if any. -/
def downloadChunk (chunk : ChunkInfo) (completedChunks : Nat)
    (partSize : Option Int) (resp : RangeResponse) :
    ChunkInfo × Nat × Option String :=
  if chunk.state = .completed then (chunk, completedChunks, none)
  else
    let chunk := match partSize with
      | some sz => { chunk with written := sz }
      | none => chunk
    if chunk.endByte - chunk.startByte + 1 ≤ chunk.written then
      if chunk.state ≠ .completed then
        ({ chunk with state := .completed }, completedChunks + 1, none)
      else (chunk, completedChunks, none)
    else if resp.status ≠ 206 ∧ resp.status ≠ 200 then
      (chunk, completedChunks, some "unexpected status")
    else
      let r := readLoop chunk completedChunks resp.body
      (r.1, r.2, none)

/-- A fresh 10-byte chunk (`[0,9]` of a 100-byte resource, nothing written). -/
def c2Chunk : ChunkInfo :=
  { id := 1, startByte := 0, endByte := 9, written := 0, index := 0, state := .active }

/-- C2: refuted by the code. When the server answers the ranged GET with
`200 OK` and the full 100-byte resource body, `DownloadChunk` on the 10-byte
chunk `[0,9]` writes all 100 body bytes into the part file and leaves
`written = 100 > 10 = end_byte - start_byte + 1`: the routine never truncates
the stream to the requested window, so the invariant
`written ≤ end_byte - start_byte + 1` is violated (and the chunk is even
marked Completed). -/
theorem c2_window_not_honored :
    (downloadChunk c2Chunk 0 none { status := 200, body := [100] }).1.written = 100
    ∧ chunkSpan c2Chunk = 10
    ∧ ¬((downloadChunk c2Chunk 0 none { status := 200, body := [100] }).1.written
          ≤ chunkSpan c2Chunk)
    ∧ (downloadChunk c2Chunk 0 none { status := 200, body := [100] }).1.state
        = .completed := by
  refine ⟨rfl, rfl, ?_, rfl⟩
  decide

/-- Method `Download.Pause` (`download.go:264-287`): when the state is Active, the
download and its Active chunks move to Paused; then — unconditionally — a
Paused download-update is emitted and the state is overwritten with Paused. -/
def Download.pause (d : Download) : Download :=
  let d' :=
    if d.state = .active then
      { d with
        state := .paused
        chunks := d.chunks.map (fun c =>
          if c.state = .active then { c with state := .paused } else c) }
    else d
  { d' with state := .paused }

/-- Method `Download.Resume` (`download.go:289-319`): when the state is Paused, the
download and its Paused chunks move back to Active (the goroutine re-running
`Start` is asynchronous and not part of the synchronous state change). -/
def Download.resume (d : Download) : Download :=
  if d.state = .paused then
    { d with
      state := .active
      chunks := d.chunks.map (fun c =>
        if c.state = .paused then { c with state := .active } else c) }
  else d

/-- A Download sitting in the Cancelled state with one Cancelled chunk. -/
def c5Cancelled : Download :=
  { id := 7, url := "u", targetPath := "p", totalSize := 10, chunkCount := 1
    chunks := [{ id := 1, startByte := 0, endByte := 9, written := 3,
                 index := 0, state := .cancelled }]
    state := .cancelled, completedChunks := 0, workersCount := 1 }

/-- C5: refuted by the code. `Pause` invoked on a Cancelled Download does not
leave the state Cancelled: the trailing unconditional `d.State = StatePaused`
of `Download.Pause` moves it to Paused, so Cancelled is not terminal. (The
Cancelled chunk itself is untouched, since only Active chunks are re-labelled.) -/
theorem c5_cancelled_not_terminal :
    (Download.pause c5Cancelled).state = .paused
    ∧ DownloadState.paused ≠ DownloadState.cancelled
    ∧ (Download.pause c5Cancelled).chunks.map ChunkInfo.state = [.cancelled] := by
  refine ⟨rfl, by decide, rfl⟩

/-- Constant `UpdateFrequency` from `download.go:67`, in milliseconds
(`200 * time.Millisecond`). -/
def UpdateFrequency : Nat := 200

/-- The emission times produced by `Download.notify` (`download.go:434-443`):
each call, serialized under `updateMutex`, compares `now - lastUpdate` with
the update period and, when at least a full period has elapsed, emits the
`chunkUpdate` event and moves `lastUpdate` to `now`. Times are in
milliseconds; Go's monotone `time.Sub` on the serialized call sequence is
non-negative, matching truncated `Nat` subtraction. `last` is the current
`lastUpdate` value and the list holds the times of the successive `notify`
calls; the result lists the times at which an event is actually emitted. -/
def notifyEmits (up : Nat) : Nat → List Nat → List Nat
  | _, [] => []
  | last, t :: ts =>
    if up ≤ t - last then t :: notifyEmits up t ts
    else notifyEmits up last ts

/-- Two emission times separated by at least the update period. -/
def spacedBy (up : Nat) (a b : Nat) : Prop := a + up ≤ b

instance (up : Nat) : IsTrans Nat (spacedBy up) :=
  ⟨fun _ _ _ h1 h2 => by unfold spacedBy at *; omega⟩

instance (up : Nat) : DecidableRel (spacedBy up) :=
  fun a b => inferInstanceAs (Decidable (a + up ≤ b))

/-- Successive emitted times are at least one update period apart, and every
emitted time is at least one period after the incoming `lastUpdate`. -/
theorem notifyEmits_spaced (up : Nat) (hup : 0 < up) :
    ∀ (ts : List Nat) (last : Nat),
      (notifyEmits up last ts).Chain' (spacedBy up)
      ∧ ∀ x ∈ notifyEmits up last ts, last + up ≤ x := by
  intro ts
  induction ts with
  | nil => intro last; exact ⟨List.chain'_nil, by intro x hx; cases hx⟩
  | cons t ts ih =>
    intro last
    by_cases h : up ≤ t - last
    · have hlt : last + up ≤ t := by omega
      obtain ⟨ihc, ihm⟩ := ih t
      constructor
      · rw [notifyEmits, if_pos h]
        refine List.Chain'.cons' ihc ?_
        intro y hy
        exact ihm y (List.mem_of_mem_head? hy)
      · intro x hx
        rw [notifyEmits, if_pos h] at hx
        rcases List.mem_cons.mp hx with hx | hx
        · omega
        · have := ihm x hx
          omega
    · obtain ⟨ihc, ihm⟩ := ih last
      rw [notifyEmits, if_neg h]
      exact ⟨ihc, ihm⟩

/-- Along a chain of times spaced by `up`, the last element of `t :: l` lies
at least `l.length * up` after `t`. -/
theorem chain_spacedBy_getLast (up : Nat) :
    ∀ (l : List Nat) (t : Nat), (t :: l).Chain' (spacedBy up) →
      t + l.length * up ≤ (t :: l).getLast (List.cons_ne_nil t l) := by
  intro l
  induction l with
  | nil => intro t _; simp
  | cons a l ih =>
    intro t hc
    rw [List.chain'_cons] at hc
    obtain ⟨hta, hc⟩ := hc
    have hlast : (t :: a :: l).getLast (List.cons_ne_nil t (a :: l))
        = (a :: l).getLast (List.cons_ne_nil a l) := List.getLast_cons (List.cons_ne_nil a l)
    rw [hlast]
    have := ih a hc
    have hmul : (l.length + 1) * up = l.length * up + up := Nat.succ_mul l.length up
    unfold spacedBy at hta
    simp only [List.length_cons]
    omega

/-- A chain of times spaced by `up`, all lying in a half-open window of
length `T`, has at most `⌈T / up⌉` elements. -/
theorem chain_spacedBy_count (up lo T : Nat) (hup : 0 < up) (l : List Nat)
    (hc : l.Chain' (spacedBy up)) (hin : ∀ x ∈ l, lo ≤ x ∧ x < lo + T) :
    l.length ≤ (T + up - 1) / up := by
  cases l with
  | nil => simp
  | cons t l =>
    have hlastmem : (t :: l).getLast (List.cons_ne_nil t l) ∈ t :: l :=
      List.getLast_mem (List.cons_ne_nil t l)
    have hbound := chain_spacedBy_getLast up l t hc
    have ht := hin t (List.mem_cons_self t l)
    have hlast := hin _ hlastmem
    have hT : l.length * up < T := by omega
    have hT1 : 1 ≤ T := by omega
    have hdiv : l.length ≤ (T - 1) / up :=
      (Nat.le_div_iff_mul_le hup).mpr (by omega)
    have heq : (T + up - 1) / up = (T - 1) / up + 1 := by
      rw [show T + up - 1 = (T - 1) + up by omega]
      exact Nat.add_div_right (T - 1) hup
    simp only [List.length_cons]
    omega

/-- C9: per Download, `notify` emits at most one `chunkUpdate` per
`UPDATE_PERIOD` (200 ms), so for every throttle state `last0`, every sequence
of `notify` call times `ts`, and every half-open time window `[a, a + T)`,
the number of emitted `chunkUpdate` events falling in the window is at most
`⌈T / UPDATE_PERIOD⌉`. -/
theorem c9_event_rate_cap (last0 a T : Nat) (ts : List Nat) :
    ((notifyEmits UpdateFrequency last0 ts).filter
        (fun t => decide (a ≤ t) && decide (t < a + T))).length
      ≤ (T + UpdateFrequency - 1) / UpdateFrequency := by
  have hup : 0 < UpdateFrequency := by norm_num [UpdateFrequency]
  have hchain := (notifyEmits_spaced UpdateFrequency hup ts last0).1
  have hsub : List.Sublist
      ((notifyEmits UpdateFrequency last0 ts).filter
        (fun t => decide (a ≤ t) && decide (t < a + T)))
      (notifyEmits UpdateFrequency last0 ts) :=
    List.filter_sublist _
  have hchain' := hchain.sublist hsub
  refine chain_spacedBy_count UpdateFrequency a T hup _ hchain' ?_
  intro x hx
  have := List.of_mem_filter hx
  simp only [Bool.and_eq_true, decide_eq_true_eq] at this
  exact this

/-- Witness for `c9_event_rate_cap`: with calls every 50 ms the throttle lets
through at most `⌈1000 / 200⌉ = 5` events in a one-second window. -/
theorem c9_event_rate_cap_witness :
    ((notifyEmits UpdateFrequency 0 [50, 100, 150, 200, 250, 300, 350, 400]).filter
        (fun t => decide (0 ≤ t) && decide (t < 0 + 1000))).length
      ≤ (1000 + UpdateFrequency - 1) / UpdateFrequency :=
  c9_event_rate_cap 0 0 1000 [50, 100, 150, 200, 250, 300, 350, 400]

/-- A row of the `downloads` table (`db.go`). -/
structure DownloadRow where
  id : Int
  url : String
  path : String
  size : Int
  chunks : Nat
  workers : Nat
  state : DownloadState
deriving DecidableEq, Repr, BEq

/-- A row of the `chunks` table (`db.go`). -/
structure ChunkRow where
  id : Int
  downloadId : Int
  chunkIndex : Nat
  startByte : Int
  endByte : Int
  written : Int
  state : DownloadState
deriving DecidableEq, Repr, BEq

/-- The SQLite database: the two tables plus the auto-increment counters. -/
structure DB where
  downloads : List DownloadRow
  chunks : List ChunkRow
  nextDownloadId : Int
  nextChunkId : Int
deriving DecidableEq, Repr, BEq

/-- Structure `DownloadManager` (`download_manager.go:13-18`): the registry map
`Downloads` (as an association list keyed by id) and the `ActiveContexts`
map of per-download cancellation handles (as the list of ids holding one). -/
structure Manager where
  db : DB
  downloads : List (Int × Download)
  activeContexts : List Int
deriving DecidableEq, Repr, BEq

/-- Result of a manager operation: normal return of the updated manager, an
error return, or a Go runtime panic (nil-pointer dereference). -/
inductive Outcome where
  | ok (m : Manager)
  | err (msg : String)
  | panicked
deriving DecidableEq, Repr, BEq

/-- The successful `HEAD` response consumed by `NewDownload`: HTTP status and
`Content-Length`. -/
structure HeadResponse where
  status : Nat
  contentLength : Int
deriving DecidableEq, Repr, BEq

/-- Constructor `NewDownload` (`download.go:90-153`): issue `HEAD`, refuse a transport
error or a non-200 status, then build the Download with
`WorkersCount = min(workers, chunks)` and the chunk ranges of `mkChunks`.
(The HTTP transport configuration and the 0700 `MkdirAll` of the target
directory have no bearing on the constructed value and are elided.) -/
def newDownload (url targetPath : String) (chunks workers : Nat)
    (head : Except String HeadResponse) : Except String Download :=
  match head with
  | .error e => .error ("error getting file info: " ++ e)
  | .ok res =>
    if res.status ≠ 200 then .error "download is not available"
    else
      .ok { id := 0
            url := url
            targetPath := targetPath
            totalSize := res.contentLength
            chunkCount := chunks
            chunks := mkChunks res.contentLength chunks
            state := .active
            completedChunks := 0
            workersCount := min workers chunks }

/-- Method `Download.Initialize` (`download.go:69-88`): re-apply the worker clamp
`WorkersCount = min(WorkersCount, ChunkCount)` on a rehydrated Download (the
HTTP client construction and `lastUpdate` reset are elided). -/
def initDownload (d : Download) : Download :=
  { d with workersCount := min d.workersCount d.chunkCount }

/-- Registry lookup `dm.Downloads[id]`. -/
def Manager.lookup (m : Manager) (id : Int) : Option Download :=
  (m.downloads.find? (fun p => p.1 == id)).map (fun p => p.2)

/-- Registry insert `dm.Downloads[d.ID] = d` (map assignment replaces). -/
def Manager.register (m : Manager) (d : Download) : Manager :=
  { m with downloads := (d.id, d) :: m.downloads.filter (fun p => p.1 != d.id) }

/-- Query `SELECT ... FROM chunks WHERE download_id = ?`, scanned into `ChunkInfo`s
(all six columns, including `state`, are read). -/
def DB.chunksOf (db : DB) (downloadId : Int) : List ChunkInfo :=
  (db.chunks.filter (fun c => c.downloadId == downloadId)).map (fun c =>
    { id := c.id, startByte := c.startByte, endByte := c.endByte,
      written := c.written, index := c.chunkIndex, state := c.state })

/-- The Download rehydrated by `LoadFromDB` (`download_manager.go:50-73`) from
one `downloads` row: all seven columns including `state` are scanned, the
chunks are loaded, and `Initialize` is applied. -/
def rowToDownload (db : DB) (r : DownloadRow) : Download :=
  initDownload
    { id := r.id, url := r.url, targetPath := r.path, totalSize := r.size,
      chunkCount := r.chunks, chunks := db.chunksOf r.id,
      state := r.state, completedChunks := 0, workersCount := r.workers }

/-- Method `getDownload` (`download_manager.go:255-286`): find the row matching
`(url, path)`. The `SELECT` reads only `id, size, chunks, workers`, so the
scanned Download keeps the Go zero value `StateActive` for its `State` field
regardless of the persisted state; the chunks are loaded (with their states)
and `Initialize` is applied. -/
def getDownload (db : DB) (url path : String) : Option Download :=
  (db.downloads.find? (fun r => r.url == url && r.path == path)).map (fun r =>
    initDownload
      { id := r.id, url := url, targetPath := path, totalSize := r.size,
        chunkCount := r.chunks, chunks := db.chunksOf r.id,
        state := .active, completedChunks := 0, workersCount := r.workers })

/-- Method `StartDownload` (`download_manager.go:159-179`): not-found error for an
unknown id, `"download already completed"` error when the in-memory state is
Completed, otherwise record a fresh cancellation handle in `ActiveContexts`
and spawn `d.Start` on a goroutine (asynchronous, not part of the
synchronous effect). -/
def startDownload (m : Manager) (id : Int) : Except String Manager :=
  match m.lookup id with
  | none => .error "download not found"
  | some d =>
    if d.state = .completed then .error "download already completed"
    else .ok { m with activeContexts := id :: m.activeContexts.filter (fun x => x != id) }

/-- Method `LoadFromDB` (`download_manager.go:43-81`): for every persisted downloads
row, rehydrate the Download with its chunks, register it, and call
`StartDownload`; any `StartDownload` error aborts the load and is returned
to `NewDownloadManager`. -/
def loadFromDB (m : Manager) : Except String Manager :=
  m.db.downloads.foldlM (fun acc r =>
    let d := rowToDownload acc.db r
    startDownload (acc.register d) d.id) m

/-- The transactional insert of `AddDownload` (`download_manager.go:118-153`):
one `downloads` row and one `chunks` row per chunk, auto-increment ids being
written back into the in-memory objects via `LastInsertId`. Returns the chunk
rows, the chunks with their assigned ids, and the next free chunk id. -/
def insertChunkRows (downloadId : Int) (firstId : Int) (chunks : List ChunkInfo) :
    List ChunkRow × List ChunkInfo × Int :=
  chunks.foldl (fun acc ch =>
    let row : ChunkRow :=
      { id := acc.2.2, downloadId := downloadId, chunkIndex := ch.index,
        startByte := ch.startByte, endByte := ch.endByte,
        written := ch.written, state := ch.state }
    (acc.1 ++ [row], acc.2.1 ++ [{ ch with id := acc.2.2 }], acc.2.2 + 1))
    ([], [], firstId)

/-- Method `AddDownload` (`download_manager.go:94-157`). If `getDownload` finds an
existing `(url, path)` row, it is registered and — when its (always-Active,
see `getDownload`) state is not terminal — started; no `HEAD` is issued and
no rows are inserted. Otherwise `NewDownload` runs; on its error the source
executes `d.ChunkWriter = dm` on the nil `*Download` *before* checking `err`,
a nil-pointer dereference, modelled as `Outcome.panicked`. On success the
download row and its chunk rows are inserted in one transaction, the ids are
assigned, the Download is registered and started. -/
def addDownload (m : Manager) (url path : String) (chunks workers : Nat)
    (head : Except String HeadResponse) : Outcome :=
  match getDownload m.db url path with
  | some existing =>
    let m := m.register existing
    if existing.state ≠ .completed ∧ existing.state ≠ .cancelled then
      match startDownload m existing.id with
      | .ok m' => .ok m'
      | .error e => .err e
    else .ok m
  | none =>
    match newDownload url path chunks workers head with
    | .error _ => .panicked
    | .ok d =>
      let did := m.db.nextDownloadId
      let row : DownloadRow :=
        { id := did, url := d.url, path := d.targetPath, size := d.totalSize,
          chunks := d.chunkCount, workers := d.workersCount, state := d.state }
      let inserted := insertChunkRows did m.db.nextChunkId d.chunks
      let d := { d with id := did, chunks := inserted.2.1 }
      let db :=
        { m.db with
          downloads := m.db.downloads ++ [row]
          chunks := m.db.chunks ++ inserted.1
          nextDownloadId := did + 1
          nextChunkId := inserted.2.2 }
      let m := Manager.register { m with db := db } d
      match startDownload m d.id with
      | .ok m' => .ok m'
      | .error e => .err e

/-- Method `UpdateDownloadStateByID` (`download_manager.go:181-207`): reads
`dm.Downloads[id]` without an existence check — a missing id yields the nil
pointer whose `d.ID` field access panics. Otherwise, in one transaction, the
download row's state is overwritten and, for every in-memory chunk that is
not Completed, the chunk row's `(state, written)` is overwritten. -/
def updateDownloadStateByID (m : Manager) (id : Int) (state : DownloadState) : Outcome :=
  match m.lookup id with
  | none => .panicked
  | some d =>
    let db :=
      { m.db with
        downloads := m.db.downloads.map (fun r =>
          if r.id == d.id then { r with state := state } else r) }
    let db := d.chunks.foldl (fun db ch =>
      if ch.state ≠ .completed then
        { db with chunks := db.chunks.map (fun c =>
            if c.id == ch.id then { c with state := state, written := ch.written } else c) }
      else db) db
    .ok { m with db := db }

/-- Method `PauseDownload` (`download_manager.go:217-233`): not-found error for an
unknown id; otherwise fire and drop the cancellation handle, run
`Download.Pause` (which mutates the registered object in place), and snapshot
the result into the store via `UpdateDownloadStateByID(id, Paused)`. -/
def pauseDownload (m : Manager) (id : Int) : Outcome :=
  match m.lookup id with
  | none => .err "download not found"
  | some d =>
    let m := { m with activeContexts := m.activeContexts.filter (fun x => x != id) }
    let m := m.register d.pause
    updateDownloadStateByID m id .paused

/-- Method `ResumeDownload` (`download_manager.go:235-245`): not-found error for an
unknown id; otherwise store a fresh cancellation handle, run
`Download.Resume` in place, and persist `Active` via
`UpdateDownloadStateByID`. -/
def resumeDownload (m : Manager) (id : Int) : Outcome :=
  match m.lookup id with
  | none => .err "download not found"
  | some d =>
    let m := { m with activeContexts := id :: m.activeContexts.filter (fun x => x != id) }
    let m := m.register d.resume
    updateDownloadStateByID m id .active

/-- Method `CancelDownload` (`download_manager.go:247-253`): fire and drop the
cancellation handle when one exists, then call
`UpdateDownloadStateByID(id, Cancelled)` — with no existence check and with
no call to `Download.Cancel`, so the in-memory Download object is never
touched. -/
def cancelDownload (m : Manager) (id : Int) : Outcome :=
  let m := { m with activeContexts := m.activeContexts.filter (fun x => x != id) }
  updateDownloadStateByID m id .cancelled

/-- The ids holding an active cancellation handle after a successful load. -/
def startedIds : Except String Manager → List Int
  | .error _ => []
  | .ok m => m.activeContexts

/-- Whether an outcome is a normal (non-error, non-panic) return. -/
def Outcome.isOk : Outcome → Bool
  | .ok _ => true
  | _ => false

/-- The database carried by a normal outcome. -/
def Outcome.dbOf : Outcome → Option DB
  | .ok m => some m.db
  | _ => none

/-- Whether the outcome is a normal return whose manager holds an active
cancellation handle for `id` (i.e. the download was started). -/
def Outcome.started (o : Outcome) (id : Int) : Bool :=
  match o with
  | .ok m => m.activeContexts.contains id
  | _ => false

/-- The persisted state of the `downloads` row `id` in a normal outcome. -/
def Outcome.rowState (o : Outcome) (id : Int) : Option DownloadState :=
  match o with
  | .ok m => (m.db.downloads.find? (fun r => r.id == id)).map (fun r => r.state)
  | _ => none

/-- The in-memory registry state of download `id` in a normal outcome. -/
def Outcome.memState (o : Outcome) (id : Int) : Option DownloadState :=
  match o with
  | .ok m => (m.lookup id).map (fun d => d.state)
  | _ => none

/-- A store holding exactly one fully Completed one-chunk download. -/
def c3MgrCompleted : Manager :=
  { db :=
      { downloads := [{ id := 1, url := "u", path := "p", size := 10,
                        chunks := 1, workers := 1, state := .completed }]
        chunks := [{ id := 1, downloadId := 1, chunkIndex := 0, startByte := 0,
                     endByte := 9, written := 10, state := .completed }]
        nextDownloadId := 2, nextChunkId := 2 }
    downloads := [], activeContexts := [] }

/-- A store holding exactly one Cancelled one-chunk download. -/
def c3MgrCancelled : Manager :=
  { db :=
      { downloads := [{ id := 1, url := "u", path := "p", size := 10,
                        chunks := 1, workers := 1, state := .cancelled }]
        chunks := [{ id := 1, downloadId := 1, chunkIndex := 0, startByte := 0,
                     endByte := 9, written := 3, state := .cancelled }]
        nextDownloadId := 2, nextChunkId := 2 }
    downloads := [], activeContexts := [] }

/-- C3: refuted by the code. `LoadFromDB` calls `StartDownload` on every
persisted download with no state filter, so (i) a store containing a
Completed download makes `LoadFromDB` return the `StartDownload` error
`"download already completed"` — startup fails instead of registering the
terminal download without starting it — and (ii) a Cancelled download is
auto-started (its id receives an active cancellation handle). -/
theorem c3_startup_not_state_filtered :
    loadFromDB c3MgrCompleted = .error "download already completed"
    ∧ startedIds (loadFromDB c3MgrCancelled) = [1] :=
  ⟨rfl, rfl⟩

/-- A store holding a Completed `(url = "u", path = "p")` download, with an
empty in-memory registry — the state after a terminal download's record
survives and `add_download` is called again for the same pair. -/
def c4Mgr : Manager :=
  { db :=
      { downloads := [{ id := 1, url := "u", path := "p", size := 10,
                        chunks := 1, workers := 1, state := .completed }]
        chunks := [{ id := 1, downloadId := 1, chunkIndex := 0, startByte := 0,
                     endByte := 9, written := 10, state := .completed }]
        nextDownloadId := 2, nextChunkId := 2 }
    downloads := [], activeContexts := [] }

/-- C4: refuted by the code. Re-adding a `(url, path)` pair whose persisted
state is Completed does attach to the existing record (same id 1, database
unchanged, and the `HEAD` response is never consulted: the outcome is
identical for a failed and for a successful `HEAD`) — but it does NOT "do
nothing": because `getDownload`'s `SELECT` omits the `state` column, the
rehydrated state is the zero value Active, the terminal-state guard never
fires, and the Completed download is started. -/
theorem c4_duplicate_add_starts_terminal :
    (addDownload c4Mgr "u" "p" 4 2 (.error "no network")).started 1 = true
    ∧ (addDownload c4Mgr "u" "p" 4 2 (.error "no network")).dbOf = some c4Mgr.db
    ∧ (addDownload c4Mgr "u" "p" 4 2 (.ok { status := 200, contentLength := 10 }))
        = (addDownload c4Mgr "u" "p" 4 2 (.error "no network"))
    ∧ (getDownload c4Mgr.db "u" "p").map Download.state = some .active :=
  ⟨rfl, rfl, rfl, rfl⟩

/-- A manager over an empty store. -/
def emptyMgr : Manager :=
  { db := { downloads := [], chunks := [], nextDownloadId := 1, nextChunkId := 1 }
    downloads := [], activeContexts := [] }

/-- C6: refuted by the code. When size discovery fails — the transport errors
out, or `HEAD` returns a non-200 status — `AddDownload` executes
`d.ChunkWriter = dm` on the nil `*Download` returned by `NewDownload` before
checking the error, so the Manager panics (nil-pointer dereference) instead
of returning the error. (No state is persisted, but not gracefully: the
process dies.) -/
theorem c6_head_failure_panics :
    addDownload emptyMgr "u" "p" 4 2 (.error "connection refused") = .panicked
    ∧ addDownload emptyMgr "u" "p" 4 2 (.ok { status := 404, contentLength := 0 })
        = .panicked :=
  ⟨rfl, rfl⟩

/-- The Completed one-chunk download registered in `c7Mgr`. -/
def c7Download : Download :=
  { id := 1, url := "u", targetPath := "p", totalSize := 10, chunkCount := 1
    chunks := [{ id := 1, startByte := 0, endByte := 9, written := 10,
                 index := 0, state := .completed }]
    state := .completed, completedChunks := 1, workersCount := 1 }

/-- A manager holding one fully Completed download, in memory and on disk. -/
def c7Mgr : Manager :=
  { db :=
      { downloads := [{ id := 1, url := "u", path := "p", size := 10,
                        chunks := 1, workers := 1, state := .completed }]
        chunks := [{ id := 1, downloadId := 1, chunkIndex := 0, startByte := 0,
                     endByte := 9, written := 10, state := .completed }]
        nextDownloadId := 2, nextChunkId := 2 }
    downloads := [(1, c7Download)], activeContexts := [] }

/-- C7 counterexample: cancelling a Completed download is not the no-op the
claim states. The call does return without error and the in-memory state
stays Completed, but `CancelDownload` unconditionally persists Cancelled
into the `downloads` row, so the persisted state does not remain Completed. -/
theorem c7_cancel_completed_counterexample :
    (cancelDownload c7Mgr 1).isOk = true
    ∧ (cancelDownload c7Mgr 1).memState 1 = some .completed
    ∧ (cancelDownload c7Mgr 1).rowState 1 = some .cancelled
    ∧ ¬((cancelDownload c7Mgr 1).rowState 1 = some .completed) :=
  ⟨rfl, rfl, rfl, by decide⟩

/-- A fold that never changes its accumulator computes the identity. -/
theorem foldl_fixed {α β : Type} (f : α → β → α) (l : List β)
    (h : ∀ c ∈ l, ∀ x, f x c = x) (a : α) : l.foldl f a = a := by
  induction l generalizing a with
  | nil => rfl
  | cons c l ih =>
    rw [List.foldl_cons, h c (List.mem_cons_self c l)]
    exact ih (fun c' hc' x => h c' (List.mem_cons_of_mem c hc') x) a

/-- C7 amended: invoking `cancel_download` on a Download whose state is
Completed returns no error and leaves the in-memory registry and every chunk
row untouched (all chunks being Completed, the snapshot loop skips them), but
it overwrites the persisted `downloads` row state with Cancelled — the
terminal state is respected in memory, yet the persisted download state does
not remain Completed. -/
theorem c7_cancel_completed_amended (m : Manager) (id : Int) (d : Download)
    (hl : m.lookup id = some d) (_hs : d.state = .completed)
    (hc : ∀ c ∈ d.chunks, c.state = .completed) :
    ∃ m', cancelDownload m id = .ok m'
      ∧ m'.downloads = m.downloads
      ∧ m'.db.chunks = m.db.chunks
      ∧ m'.db.downloads = m.db.downloads.map (fun r =>
          if r.id == d.id then { r with state := DownloadState.cancelled } else r) := by
  have hfold : ∀ (db : DB),
      d.chunks.foldl (fun db ch =>
        if ch.state ≠ .completed then
          { db with chunks := db.chunks.map (fun c =>
              if c.id == ch.id then
                { c with state := DownloadState.cancelled, written := ch.written }
              else c) }
        else db) db = db := by
    intro db
    refine foldl_fixed _ _ ?_ db
    intro c hcmem x
    rw [if_neg]
    simp [hc c hcmem]
  have hl' : Manager.lookup
      { m with activeContexts := m.activeContexts.filter (fun x => x != id) } id
      = some d := hl
  refine ⟨{ m with
      activeContexts := m.activeContexts.filter (fun x => x != id)
      db := { m.db with downloads := m.db.downloads.map (fun r =>
          if r.id == d.id then { r with state := DownloadState.cancelled } else r) } },
    ?_, rfl, rfl, rfl⟩
  simp only [cancelDownload, updateDownloadStateByID, hl', hfold]

/-- Witness for `c7_cancel_completed_amended` at the concrete Completed
download of `c7Mgr`. -/
theorem c7_cancel_completed_amended_witness :
    ∃ m', cancelDownload c7Mgr 1 = .ok m'
      ∧ m'.downloads = c7Mgr.downloads
      ∧ m'.db.chunks = c7Mgr.db.chunks
      ∧ m'.db.downloads = c7Mgr.db.downloads.map (fun r =>
          if r.id == c7Download.id then { r with state := DownloadState.cancelled } else r) :=
  c7_cancel_completed_amended c7Mgr 1 c7Download rfl rfl (by
    intro c hc
    have h := List.mem_singleton.mp hc
    subst h
    rfl)

/-- C8: partially refuted by the code. For an id absent from the registry,
`PauseDownload` and `ResumeDownload` do return not-found errors, but
`CancelDownload` performs no existence check: it calls
`UpdateDownloadStateByID`, which dereferences the nil map entry (`d.ID`) and
panics. -/
theorem c8_unknown_id :
    pauseDownload emptyMgr 42 = .err "download not found"
    ∧ resumeDownload emptyMgr 42 = .err "download not found"
    ∧ cancelDownload emptyMgr 42 = .panicked :=
  ⟨rfl, rfl, rfl⟩

/-- Starting a freshly registered, non-Completed download records its
cancellation handle. -/
theorem startDownload_register (mm : Manager) (d : Download) (i : Int)
    (hid : d.id = i) (h : d.state ≠ .completed) :
    startDownload (mm.register d) i
      = .ok { mm.register d with
          activeContexts := i :: (mm.register d).activeContexts.filter (fun x => x != i) } := by
  subst hid
  simp only [startDownload, Manager.lookup, Manager.register]
  rw [List.find?_cons_of_pos _ (by simp)]
  simp [h]

/-- C10: for every Download created through `add_download` with `(chunks N,
workers W)`, the worker count kept in memory and written to the `downloads`
table is `min(W, N)`, not the requested `W`; hence `workers ≤ chunks` holds
for the persisted row, and the same clamp is re-applied by `Initialize`
whenever a Download is rehydrated from the store (`LoadFromDB` and
`getDownload` both call it). -/
theorem c10_workers_clamped (url path : String) (chunks workers : Nat)
    (res : HeadResponse) (hres : res.status = 200) :
    (∀ d, newDownload url path chunks workers (.ok res) = .ok d →
        d.workersCount = min workers chunks ∧ d.workersCount ≤ chunks)
    ∧ (∀ d : Download, (initDownload d).workersCount
        = min d.workersCount d.chunkCount)
    ∧ (∀ db r, (rowToDownload db r).workersCount = min r.workers r.chunks)
    ∧ (∀ db d, getDownload db url path = some d →
        d.workersCount ≤ d.chunkCount)
    ∧ (∀ m : Manager, getDownload m.db url path = none →
        ∃ m', addDownload m url path chunks workers (.ok res) = .ok m'
          ∧ ∃ r, r ∈ m'.db.downloads
              ∧ r.workers = min workers chunks
              ∧ r.workers ≤ r.chunks
              ∧ r.chunks = chunks) := by
  have hnew : newDownload url path chunks workers (.ok res)
      = .ok { id := 0, url := url, targetPath := path,
              totalSize := res.contentLength, chunkCount := chunks,
              chunks := mkChunks res.contentLength chunks,
              state := .active, completedChunks := 0,
              workersCount := min workers chunks } := by
    simp [newDownload, hres]
  refine ⟨?_, ?_, ?_, ?_, ?_⟩
  · intro d hd
    rw [hnew] at hd
    cases hd
    exact ⟨rfl, Nat.min_le_right _ _⟩
  · intro d
    rfl
  · intro db r
    rfl
  · intro db d hd
    simp only [getDownload, Option.map_eq_some'] at hd
    obtain ⟨r, _, hr⟩ := hd
    rw [← hr]
    exact Nat.min_le_right _ _
  · intro m hnone
    rw [addDownload.eq_def, hnone, hnew]
    simp only
    rw [startDownload_register _ _ _ rfl (by simp)]
    refine ⟨_, rfl, ?_⟩
    refine ⟨⟨m.db.nextDownloadId, url, path, res.contentLength, chunks,
        min workers chunks, .active⟩, ?_, rfl, Nat.min_le_right _ _, rfl⟩
    simp [Manager.register]

/-- Witness for `c10_workers_clamped`: adding a 4-chunk download with 9
requested workers over an empty store persists `workers = min 9 4 = 4`. -/
theorem c10_workers_clamped_witness :
    ∃ m', addDownload emptyMgr "u" "p" 4 9 (.ok { status := 200, contentLength := 1000 })
        = .ok m'
      ∧ ∃ r, r ∈ m'.db.downloads
          ∧ r.workers = min 9 4
          ∧ r.workers ≤ r.chunks
          ∧ r.chunks = 4 :=
  (c10_workers_clamped "u" "p" 4 9 { status := 200, contentLength := 1000 }
    rfl).2.2.2.2 emptyMgr rfl
